import Mathlib

/-!
Shallow embedding of the BM25 / TF-IDF document ranking engines from
`src/indexes/bm25/bm25_calculator.py`, `src/indexes/bm25/document_ranker.py`
and `src/indexes/tf-idf/tfidf_calculator.py`.

Modelling conventions:
* Python floats are modelled as exact rationals (`ℚ`); the transcendental
  `math.log` is abstracted as a parameter `log : ℚ → ℚ` threaded through the
  definitions that call it (none of the claims depend on concrete log values).
* Python dicts are association lists with insertion-order-preserving update
  (`dictSet` / `dictGet`); Python sets of strings are `Finset String`, and a
  loop `for term in some_set` is modelled as a fold over the sorted element
  list (Python's set iteration order is arbitrary; no claim depends on it).
* Python exceptions (`ZeroDivisionError`, `IndexError`, `ValueError`) are
  modelled explicitly (`PyErr`) at the places where the Python code can raise;
  `fit` returns the mutated state together with an optional error, because a
  Python exception leaves the partially mutated object behind.
-/

/-- Python exceptions that the modelled code can raise. -/
inductive PyErr where
  | zeroDivisionError
  | indexError
  | valueError
deriving DecidableEq

/-- Helper for `preprocess_text`: splits a lower-cased character stream on
whitespace runs, discarding empty fragments, accumulating the current token in
reverse. Models Python `str.split()`. -/
def tokenizeChars : List Char → List Char → List String
  | [], cur => if cur.isEmpty then [] else [String.mk cur.reverse]
  | c :: cs, cur =>
    if c.isWhitespace then
      if cur.isEmpty then tokenizeChars cs []
      else String.mk cur.reverse :: tokenizeChars cs []
    else tokenizeChars cs (c :: cur)

/-- `preprocess_text` from both calculators: lowercase, then split on
whitespace (`text.lower().split()`). -/
def preprocess_text (text : String) : List String :=
  tokenizeChars (text.toList.map Char.toLower) []

/-- Python dict lookup (`d.get(k)` / `d[k]`), as an association-list scan. -/
def dictGet : List (String × ℚ) → String → Option ℚ
  | [], _ => none
  | (a, b) :: es, k => if k = a then some b else dictGet es k

/-- Python dict update `d[k] = v`: replaces the value in place when the key is
present, appends otherwise (Python dicts preserve insertion order). -/
def dictSet : List (String × ℚ) → String → ℚ → List (String × ℚ)
  | [], k, v => [(k, v)]
  | (a, b) :: es, k, v => if k = a then (k, v) :: es else (a, b) :: dictSet es k v

/-- The mutable state of `BM25Calculator` (fields as in `__init__`).
`doc_term_freqs` stores the token list of each document; the Python `Counter`
built from it answers `counter.get(t, 0)` as `tokens.count t`. -/
structure BM25State where
  k1 : ℚ
  b : ℚ
  documents : List String
  doc_lengths : List Nat
  avg_doc_length : ℚ
  vocabulary : Finset String
  doc_term_freqs : List (List String)
  idf_scores : List (String × ℚ)
  N : Nat
deriving DecidableEq

/-- `BM25Calculator.__init__(k1, b)`: records the parameters unchanged and
starts with empty corpus state. No validation is performed. -/
def BM25init (k1 b : ℚ) : BM25State :=
  { k1 := k1
    b := b
    documents := []
    doc_lengths := []
    avg_doc_length := 0
    vocabulary := ∅
    doc_term_freqs := []
    idf_scores := []
    N := 0 }

/-- The smoothed IDF value computed in `_calculate_idf_scores`:
`log((N - df + 0.5) / (df + 0.5))` with `df` the number of processed documents
containing the term. -/
def bm25IdfValue (log : ℚ → ℚ) (N : Nat) (processed : List (List String)) (t : String) : ℚ :=
  let df : Nat := processed.countP (fun d => decide (t ∈ d))
  log (((N : ℚ) - (df : ℚ) + 1/2) / ((df : ℚ) + 1/2))

/-- `BM25Calculator._calculate_idf_scores`: for every term of the (possibly
accumulated) vocabulary, store its smoothed IDF into the `idf_scores` dict. -/
def calcIdfScores (log : ℚ → ℚ) (voc : Finset String) (N : Nat)
    (processed : List (List String)) (d0 : List (String × ℚ)) : List (String × ℚ) :=
  (voc.sort (· ≤ ·)).foldl (fun d t => dictSet d t (bm25IdfValue log N processed t)) d0

/-- Vocabulary accumulation in `fit`: `self.vocabulary.update(tokens)` for each
document, starting from the vocabulary already present on the instance. -/
def vocabUpdate (ds : List (List String)) (v0 : Finset String) : Finset String :=
  ds.foldl (fun v toks => toks.foldl (fun v t => insert t v) v) v0

/-- `BM25Calculator.fit(documents)`, including its failure behaviour: on an
empty input, `sum(self.doc_lengths) / len(self.doc_lengths)` raises
`ZeroDivisionError` after `documents`, `N`, `doc_lengths` (and the vocabulary
update, which adds nothing) have already been assigned, leaving
`doc_term_freqs`, `idf_scores` and `avg_doc_length` untouched. -/
def BM25fit (log : ℚ → ℚ) (st : BM25State) (documents : List String) :
    BM25State × Option PyErr :=
  let processed := documents.map preprocess_text
  let voc := vocabUpdate processed st.vocabulary
  let st1 := { st with
    documents := documents
    N := documents.length
    doc_lengths := processed.map List.length
    vocabulary := voc }
  if documents.length = 0 then (st1, some PyErr.zeroDivisionError)
  else
    let avg : ℚ := (((processed.map List.length).sum : ℚ)) / ((processed.map List.length).length : ℚ)
    ({ st1 with
        avg_doc_length := avg
        doc_term_freqs := processed
        idf_scores := calcIdfScores log voc documents.length processed st.idf_scores }, none)

/-- One per-term summand of `calculate_bm25_score`:
`idf * (tf * (k1 + 1)) / (tf + k1 * (1 - b + b * doc_length/avg_doc_length))`,
with the IDF read from the `idf_scores` dict. -/
def bm25TermScore (st : BM25State) (doc_length tf : ℚ) (t : String) : ℚ :=
  let idf := (dictGet st.idf_scores t).getD 0
  let length_norm := 1 - st.b + st.b * (doc_length / st.avg_doc_length)
  idf * (tf * (st.k1 + 1)) / (tf + st.k1 * length_norm)

/-- `BM25Calculator.calculate_bm25_score(query, doc_idx)`: iterate over all
query tokens (duplicates included), skipping tokens outside the vocabulary,
and sum the per-term scores. -/
def calculate_bm25_score (st : BM25State) (query : String) (doc_idx : Nat) : ℚ :=
  let query_terms := preprocess_text query
  let doc_term_freq := st.doc_term_freqs.getD doc_idx []
  let doc_length : ℚ := (st.doc_lengths.getD doc_idx 0 : ℚ)
  query_terms.foldl
    (fun score term =>
      if term ∈ st.vocabulary then
        score + bm25TermScore st doc_length ((doc_term_freq.count term : ℚ)) term
      else score) 0

/-- `BM25Calculator.rank_documents(query, top_k)`: score every document index,
stable-sort by score descending (Python `list.sort` is stable), optionally
truncate to the first `top_k` entries. -/
def rank_documents (st : BM25State) (query : String) (top_k : Option Nat) :
    List (Nat × String × ℚ) :=
  let scores := (List.range st.documents.length).map
    (fun i => (i, st.documents.getD i "", calculate_bm25_score st query i))
  let sorted := scores.mergeSort (fun a b => decide (b.2.2 ≤ a.2.2))
  match top_k with
  | none => sorted
  | some k => sorted.take k

/-- Python list indexing `l[i]` with an `int` index: nonnegative indices are
valid below the length, negative indices address from the end down to
`-len(l)`; anything else raises `IndexError` (modelled as `none`). -/
def pyIndex (l : List α) (i : Int) : Option α :=
  if 0 ≤ i then l.get? i.toNat
  else if -(l.length : Int) ≤ i then l.get? (i + (l.length : Int)).toNat
  else none

/-- One entry of the `analysis['terms']` list in `get_term_analysis`. -/
structure TermEntry where
  term : String
  query_count : Nat
  doc_tf : Nat
  idf : ℚ
  length_norm : ℚ
  term_score : ℚ
  weighted_score : ℚ
deriving DecidableEq

/-- The dictionary returned by `get_term_analysis`. -/
structure TermAnalysis where
  document_index : Int
  document_length : Nat
  avg_doc_length : ℚ
  length_ratio : ℚ
  terms : List TermEntry
  total_score : ℚ
deriving DecidableEq

/-- The per-term loop of `get_term_analysis`, over the distinct query terms:
each in-vocabulary term contributes an entry, and
`term_score = idf * (tf*(k1+1)) / (tf + k1*length_norm)` raises
`ZeroDivisionError` when its denominator is zero. Returns the entry list and
the total of the weighted scores. -/
def analysisTerms (st : BM25State) (doc_term_freq : List String) (doc_length : ℚ)
    (query_terms : List String) : List String → Except PyErr (List TermEntry × ℚ)
  | [] => Except.ok ([], 0)
  | t :: ts =>
    if t ∈ st.vocabulary then
      if ((doc_term_freq.count t : ℚ)) +
          st.k1 * (1 - st.b + st.b * (doc_length / st.avg_doc_length)) = 0 then
        Except.error PyErr.zeroDivisionError
      else
        match analysisTerms st doc_term_freq doc_length query_terms ts with
        | Except.error e => Except.error e
        | Except.ok (es, tot) =>
          Except.ok
            ({ term := t
               query_count := query_terms.count t
               doc_tf := doc_term_freq.count t
               idf := (dictGet st.idf_scores t).getD 0
               length_norm := 1 - st.b + st.b * (doc_length / st.avg_doc_length)
               term_score := (dictGet st.idf_scores t).getD 0 *
                 ((doc_term_freq.count t : ℚ) * (st.k1 + 1)) /
                 ((doc_term_freq.count t : ℚ) +
                   st.k1 * (1 - st.b + st.b * (doc_length / st.avg_doc_length)))
               weighted_score := (dictGet st.idf_scores t).getD 0 *
                 ((doc_term_freq.count t : ℚ) * (st.k1 + 1)) /
                 ((doc_term_freq.count t : ℚ) +
                   st.k1 * (1 - st.b + st.b * (doc_length / st.avg_doc_length))) *
                 (query_terms.count t : ℚ) } :: es,
              tot + (dictGet st.idf_scores t).getD 0 *
                ((doc_term_freq.count t : ℚ) * (st.k1 + 1)) /
                ((doc_term_freq.count t : ℚ) +
                  st.k1 * (1 - st.b + st.b * (doc_length / st.avg_doc_length))) *
                (query_terms.count t : ℚ))
    else analysisTerms st doc_term_freq doc_length query_terms ts

/-- `BM25Calculator.get_term_analysis(query, doc_idx)`: Python list indexing
into `doc_term_freqs` and `doc_lengths` (raising `IndexError` outside
`[-N, N)`), then `doc_length / avg_doc_length` (raising `ZeroDivisionError`
when the average is zero), then the per-term loop over the distinct query
terms (modelled in `List.dedup` order; Python's set order is arbitrary). -/
def get_term_analysis (st : BM25State) (query : String) (doc_idx : Int) :
    Except PyErr TermAnalysis :=
  let query_terms := preprocess_text query
  match pyIndex st.doc_term_freqs doc_idx with
  | none => Except.error PyErr.indexError
  | some doc_term_freq =>
    match pyIndex st.doc_lengths doc_idx with
    | none => Except.error PyErr.indexError
    | some doc_length =>
      if st.avg_doc_length = 0 then Except.error PyErr.zeroDivisionError
      else
        match analysisTerms st doc_term_freq (doc_length : ℚ) query_terms query_terms.dedup with
        | Except.error e => Except.error e
        | Except.ok (es, tot) =>
          Except.ok { document_index := doc_idx
                      document_length := doc_length
                      avg_doc_length := st.avg_doc_length
                      length_ratio := (doc_length : ℚ) / st.avg_doc_length
                      terms := es
                      total_score := tot }

/-- The inner document loop of `get_top_keywords` for one query term:
accumulates the total per-term BM25 contribution and the count of documents in
which the term has nonzero frequency. -/
def keywordDocContrib (st : BM25State) (term : String) : ℚ × Nat :=
  (List.range st.documents.length).foldl
    (fun p i =>
      if 0 < (st.doc_term_freqs.getD i []).count term then
        (p.1 + bm25TermScore st ((st.doc_lengths.getD i 0 : ℚ))
          (((st.doc_term_freqs.getD i []).count term : ℚ)) term, p.2 + 1)
      else p) (0, 0)

/-- `BM25Calculator.get_top_keywords(query, top_k)`: for each distinct
in-vocabulary query term (set iteration modelled in `List.dedup` order),
average its per-term BM25 score over just the documents where its term
frequency is nonzero; terms matching no document are dropped; stable-sort by
average descending and truncate. -/
def get_top_keywords (st : BM25State) (query : String) (top_k : Nat) :
    List (String × ℚ) :=
  (((preprocess_text query).dedup.foldl
    (fun acc term =>
      if term ∈ st.vocabulary then
        if 0 < (keywordDocContrib st term).2 then
          acc ++ [(term, (keywordDocContrib st term).1 / ((keywordDocContrib st term).2 : ℚ))]
        else acc
      else acc) []).mergeSort (fun a b => decide (b.2 ≤ a.2))).take top_k

/-- The document indices over which the spec averages a keyword's score: those
whose term frequency for the term is nonzero. -/
def keywordEligibleDocs (st : BM25State) (term : String) : List Nat :=
  (List.range st.documents.length).filter
    (fun i => decide (0 < (st.doc_term_freqs.getD i []).count term))

/-- The arithmetic mean, as the spec states it, of the per-term BM25 score
over only the documents with nonzero term frequency. -/
def keywordMeanScore (st : BM25State) (term : String) : ℚ :=
  ((keywordEligibleDocs st term).map
    (fun i => bm25TermScore st ((st.doc_lengths.getD i 0 : ℚ))
      (((st.doc_term_freqs.getD i []).count term : ℚ)) term)).sum /
    ((keywordEligibleDocs st term).length : ℚ)

/-- The mutable state of `TFIDFCalculator`. Its `documents` field stores the
already-preprocessed token lists (the Python code overwrites `self.documents`
with the preprocessed corpus inside `fit`). -/
structure TFIDFState where
  documents : List (List String)
  vocabulary : Finset String
  idf_scores : List (String × ℚ)
deriving DecidableEq

/-- `TFIDFCalculator.__init__`. -/
def TFIDFinit : TFIDFState :=
  { documents := [], vocabulary := ∅, idf_scores := [] }

/-- `TFIDFCalculator.calculate_tf(term, document)`:
`count / total`, and `0.0` for an empty document. -/
def calculate_tf (term : String) (document : List String) : ℚ :=
  if document.length = 0 then 0
  else ((document.count term : ℚ)) / ((document.length : ℚ))

/-- `TFIDFCalculator.calculate_idf(term, documents)`:
`log(total / with_term)`, and `0.0` when no document contains the term. -/
def calculate_idf (log : ℚ → ℚ) (term : String) (documents : List (List String)) : ℚ :=
  let total : Nat := documents.length
  let withTerm : Nat := documents.countP (fun d => decide (term ∈ d))
  if withTerm = 0 then 0 else log ((total : ℚ) / (withTerm : ℚ))

/-- `TFIDFCalculator.fit(documents)`: replaces the stored (preprocessed)
corpus, accumulates the vocabulary (`update`), and recomputes the IDF entry of
every accumulated vocabulary term against the new corpus. Never raises. -/
def TFIDFfit (log : ℚ → ℚ) (st : TFIDFState) (documents : List String) : TFIDFState :=
  let docs := documents.map preprocess_text
  let voc := vocabUpdate docs st.vocabulary
  let idf := (voc.sort (· ≤ ·)).foldl
    (fun d t => dictSet d t (calculate_idf log t docs)) st.idf_scores
  { documents := docs, vocabulary := voc, idf_scores := idf }

/-- `TFIDFCalculator.calculate_tfidf_vector(text)`: raises `ValueError` when
no corpus is stored (`if not self.documents`), otherwise builds the sparse
vector over the in-vocabulary tokens of the text. -/
def calculate_tfidf_vector (st : TFIDFState) (text : String) :
    Except PyErr (List (String × ℚ)) :=
  if st.documents.length = 0 then Except.error PyErr.valueError
  else
    let tokens := preprocess_text text
    Except.ok (tokens.foldl
      (fun vec term =>
        if term ∈ st.vocabulary then
          dictSet vec term (calculate_tf term tokens * (dictGet st.idf_scores term).getD 0)
        else vec) [])

/-- The state of `BM25DocumentRanker`. -/
structure RankerState where
  bm25_calc : BM25State
  documents : List String
  fitted : Bool
deriving DecidableEq

/-- `BM25DocumentRanker.__init__(k1, b)`. -/
def rankerInit (k1 b : ℚ) : RankerState :=
  { bm25_calc := BM25init k1 b, documents := [], fitted := false }

/-- `BM25DocumentRanker.fit(documents)`: assigns `documents`, delegates to the
calculator's `fit`, and sets `fitted = True` only if that call did not raise
(a raise propagates before the `self.fitted = True` line runs). -/
def rankerFit (log : ℚ → ℚ) (r : RankerState) (documents : List String) :
    RankerState × Option PyErr :=
  let res := BM25fit log r.bm25_calc documents
  match res.2 with
  | some e => ({ r with documents := documents, bm25_calc := res.1 }, some e)
  | none => ({ bm25_calc := res.1, documents := documents, fitted := true }, none)

/-- `BM25DocumentRanker.search(query, top_k)`: raises `ValueError` when not
fitted, otherwise delegates to `rank_documents`. -/
def rankerSearch (r : RankerState) (query : String) (top_k : Nat) :
    Except PyErr (List (Nat × String × ℚ)) :=
  if r.fitted = false then Except.error PyErr.valueError
  else Except.ok (rank_documents r.bm25_calc query (some top_k))

/-- A sequence of `fit` calls on one `BM25Calculator` instance, keeping the
state each call leaves behind (also after a raising call). -/
def applyFits (log : ℚ → ℚ) (st : BM25State) (fits : List (List String)) : BM25State :=
  fits.foldl (fun s docs => (BM25fit log s docs).1) st

/-- A sequence of `fit` calls on one `TFIDFCalculator` instance. -/
def applyFitsT (log : ℚ → ℚ) (st : TFIDFState) (fits : List (List String)) : TFIDFState :=
  fits.foldl (fun s docs => TFIDFfit log s docs) st

/-- Concrete stand-in for `math.log` used only to instantiate witnesses and
counterexamples (no claim depends on log values). -/
def logW : ℚ → ℚ := fun q => q - 1


/-! ### Helper lemmas about the embedded primitives -/

lemma mem_foldl_insert (t : String) (l : List String) (s : Finset String) :
    t ∈ l.foldl (fun v x => insert x v) s ↔ t ∈ l ∨ t ∈ s := by
  induction l generalizing s with
  | nil => simp
  | cons a l ih =>
    simp only [List.foldl_cons, ih, Finset.mem_insert, List.mem_cons]
    tauto

lemma mem_vocabUpdate (t : String) (ds : List (List String)) (v0 : Finset String) :
    t ∈ vocabUpdate ds v0 ↔ (∃ d ∈ ds, t ∈ d) ∨ t ∈ v0 := by
  induction ds generalizing v0 with
  | nil => simp [vocabUpdate]
  | cons d ds ih =>
    simp only [vocabUpdate, List.foldl_cons] at *
    rw [ih, mem_foldl_insert]
    constructor
    · rintro (⟨x, hx, ht⟩ | h | h)
      · exact Or.inl ⟨x, List.mem_cons_of_mem d hx, ht⟩
      · exact Or.inl ⟨d, List.mem_cons_self d ds, h⟩
      · exact Or.inr h
    · rintro (⟨x, hx, ht⟩ | h)
      · rcases List.mem_cons.mp hx with hx | hx
        · exact Or.inr (Or.inl (hx ▸ ht))
        · exact Or.inl ⟨x, hx, ht⟩
      · exact Or.inr (Or.inr h)

lemma vocabUpdate_eq_union (ds : List (List String)) (v0 : Finset String) :
    vocabUpdate ds v0 = v0 ∪ vocabUpdate ds ∅ := by
  ext t
  simp only [mem_vocabUpdate, Finset.mem_union, Finset.not_mem_empty, or_false]
  exact or_comm

lemma dictGet_dictSet_self (d : List (String × ℚ)) (k : String) (v : ℚ) :
    dictGet (dictSet d k v) k = some v := by
  induction d with
  | nil => simp [dictSet, dictGet]
  | cons p es ih =>
    obtain ⟨a, b⟩ := p
    by_cases hka : k = a
    · subst hka
      simp [dictSet, dictGet]
    · simp [dictSet, dictGet, hka, ih]

lemma dictGet_dictSet_ne (d : List (String × ℚ)) (k : String) (v : ℚ)
    (k' : String) (h : k' ≠ k) :
    dictGet (dictSet d k v) k' = dictGet d k' := by
  induction d with
  | nil => simp [dictSet, dictGet, h]
  | cons p es ih =>
    obtain ⟨a, b⟩ := p
    by_cases hka : k = a
    · subst hka
      by_cases hk'a : k' = k
      · exact absurd hk'a h
      · simp [dictSet, dictGet, hk'a]
    · by_cases hk'a : k' = a
      · simp [dictSet, dictGet, hka, hk'a]
      · simp [dictSet, dictGet, hka, hk'a, ih]

lemma dictGet_foldl_dictSet (f : String → ℚ) (L : List String)
    (d0 : List (String × ℚ)) (t : String) :
    dictGet (L.foldl (fun d k => dictSet d k (f k)) d0) t =
      if t ∈ L then some (f t) else dictGet d0 t := by
  induction L generalizing d0 with
  | nil => simp
  | cons k L ih =>
    simp only [List.foldl_cons, ih, List.mem_cons]
    by_cases htL : t ∈ L
    · simp [htL]
    · by_cases htk : t = k
      · subst htk
        simp [htL, dictGet_dictSet_self]
      · simp [htL, htk, dictGet_dictSet_ne _ _ _ _ htk]

lemma dictGet_calcIdfScores (log : ℚ → ℚ) (voc : Finset String) (N : Nat)
    (processed : List (List String)) (d0 : List (String × ℚ)) (t : String)
    (ht : t ∈ voc) :
    dictGet (calcIdfScores log voc N processed d0) t =
      some (bm25IdfValue log N processed t) := by
  unfold calcIdfScores
  rw [dictGet_foldl_dictSet]
  simp [Finset.mem_sort, ht]

lemma BM25fit_nil (log : ℚ → ℚ) (st : BM25State) :
    BM25fit log st [] =
      ({ st with documents := [], N := 0, doc_lengths := [] },
        some PyErr.zeroDivisionError) := rfl

lemma BM25fit_of_ne_nil (log : ℚ → ℚ) (st : BM25State) (docs : List String)
    (h : docs ≠ []) :
    BM25fit log st docs =
      ({ k1 := st.k1
         b := st.b
         documents := docs
         doc_lengths := (docs.map preprocess_text).map List.length
         avg_doc_length := (((docs.map preprocess_text).map List.length).sum : ℚ) /
           ((((docs.map preprocess_text).map List.length).length : ℚ))
         vocabulary := vocabUpdate (docs.map preprocess_text) st.vocabulary
         doc_term_freqs := docs.map preprocess_text
         idf_scores := calcIdfScores log (vocabUpdate (docs.map preprocess_text) st.vocabulary)
           docs.length (docs.map preprocess_text) st.idf_scores
         N := docs.length }, none) := by
  simp only [BM25fit, List.length_eq_zero, if_neg h]

lemma BM25fit_snd_eq_none_iff (log : ℚ → ℚ) (st : BM25State) (docs : List String) :
    (BM25fit log st docs).2 = none ↔ docs ≠ [] := by
  by_cases h : docs = []
  · subst h; simp [BM25fit_nil]
  · simp [BM25fit_of_ne_nil log st docs h, h]

/-! ### C1: fit on an empty corpus -/

/-- C1 counterexample: the claim that `fit([])` fails with `EmptyCorpusError`
and commits no state is false on the code. On a `BM25Calculator` previously
fitted with `["a"]`, `fit([])` raises `ZeroDivisionError` (no
`EmptyCorpusError` exists in the code) after having already overwritten
`documents`, and on a `TFIDFCalculator`, `fit([])` does not fail at all. -/
theorem fit_empty_no_emptycorpus_cex :
    (BM25fit logW (BM25fit logW (BM25init (6/5) (3/4)) ["a"]).1 []).2 =
        some PyErr.zeroDivisionError ∧
    (BM25fit logW (BM25fit logW (BM25init (6/5) (3/4)) ["a"]).1 []).1 ≠
        (BM25fit logW (BM25init (6/5) (3/4)) ["a"]).1 ∧
    (TFIDFfit logW (TFIDFfit logW TFIDFinit ["a"]) []).documents = [] := by
  refine ⟨rfl, ?_, rfl⟩
  intro h
  have hd := congrArg BM25State.documents h
  rw [BM25fit_nil, BM25fit_of_ne_nil logW _ ["a"] (by simp)] at hd
  simp at hd

/-- C1 amended: `BM25Calculator.fit([])` raises `ZeroDivisionError` (not an
`EmptyCorpusError`, which does not exist) and does commit the first part of
the new state: `documents`, `N` and `doc_lengths` are overwritten before the
raise, while `avg_doc_length`, `doc_term_freqs`, `idf_scores` and the
vocabulary keep their old values. `TFIDFCalculator.fit([])` does not fail at
all: it replaces the stored corpus with the empty list, keeps the accumulated
vocabulary, and zeroes the IDF entry of every accumulated vocabulary term. -/
theorem fit_empty_commits_state (log : ℚ → ℚ) (st : BM25State) (stT : TFIDFState)
    (t : String) (ht : t ∈ stT.vocabulary) :
    BM25fit log st [] =
      ({ st with documents := [], N := 0, doc_lengths := [] },
        some PyErr.zeroDivisionError) ∧
    (TFIDFfit log stT []).documents = [] ∧
    (TFIDFfit log stT []).vocabulary = stT.vocabulary ∧
    dictGet (TFIDFfit log stT []).idf_scores t = some 0 := by
  refine ⟨BM25fit_nil log st, rfl, rfl, ?_⟩
  show dictGet ((stT.vocabulary.sort (· ≤ ·)).foldl
      (fun d u => dictSet d u (calculate_idf log u [])) stT.idf_scores) t = some 0
  rw [dictGet_foldl_dictSet (fun u => calculate_idf log u [])]
  simp [Finset.mem_sort, ht, calculate_idf]

/-- Witness for `fit_empty_commits_state` at a concrete fitted TF-IDF state. -/
theorem fit_empty_commits_state_witness :
    BM25fit logW (BM25init 1 1) [] =
      ({ BM25init 1 1 with documents := [], N := 0, doc_lengths := [] },
        some PyErr.zeroDivisionError) ∧
    (TFIDFfit logW (TFIDFfit logW TFIDFinit ["a"]) []).documents = [] ∧
    (TFIDFfit logW (TFIDFfit logW TFIDFinit ["a"]) []).vocabulary =
      (TFIDFfit logW TFIDFinit ["a"]).vocabulary ∧
    dictGet (TFIDFfit logW (TFIDFfit logW TFIDFinit ["a"]) []).idf_scores "a" = some 0 :=
  fit_empty_commits_state logW (BM25init 1 1) (TFIDFfit logW TFIDFinit ["a"]) "a"
    (by decide)

/-! ### C2: re-fitting does not replace the whole state -/

/-- C2 counterexample: fitting `["a"]` then `["b"]` leaves `"a"` in the
vocabulary, so the state after the second fit differs from fitting `["b"]` on
a fresh instance, and the vocabulary is not the distinct-token set of the
second corpus. -/
theorem refit_vocabulary_accumulates_cex :
    (BM25fit logW (BM25fit logW (BM25init (6/5) (3/4)) ["a"]).1 ["b"]).1.vocabulary ≠
      (BM25fit logW (BM25init (6/5) (3/4)) ["b"]).1.vocabulary := by
  decide

/-- C2 amended: a second `fit(docs2)` replaces all corpus-derived fields
(`documents`, `doc_lengths`, `avg_doc_length`, `doc_term_freqs`, `N`) with
exactly the values a fresh instance fitted on `docs2` would hold, but the
vocabulary is the union of the old vocabulary with the fresh one (terms from
`docs1` survive), and the IDF table covers the whole accumulated vocabulary
with values recomputed from `docs2` alone. The TF-IDF engine behaves the same
way on its corpus and vocabulary fields. -/
theorem refit_replaces_corpus_fields (log : ℚ → ℚ) (st : BM25State)
    (docs : List String) (stT : TFIDFState) (u : String)
    (h : (BM25fit log st docs).2 = none)
    (hu : u ∈ (BM25fit log st docs).1.vocabulary) :
    (BM25fit log st docs).1.documents = (BM25fit log (BM25init st.k1 st.b) docs).1.documents ∧
    (BM25fit log st docs).1.doc_lengths = (BM25fit log (BM25init st.k1 st.b) docs).1.doc_lengths ∧
    (BM25fit log st docs).1.avg_doc_length =
      (BM25fit log (BM25init st.k1 st.b) docs).1.avg_doc_length ∧
    (BM25fit log st docs).1.doc_term_freqs =
      (BM25fit log (BM25init st.k1 st.b) docs).1.doc_term_freqs ∧
    (BM25fit log st docs).1.N = (BM25fit log (BM25init st.k1 st.b) docs).1.N ∧
    (BM25fit log st docs).1.vocabulary =
      st.vocabulary ∪ (BM25fit log (BM25init st.k1 st.b) docs).1.vocabulary ∧
    dictGet (BM25fit log st docs).1.idf_scores u =
      some (bm25IdfValue log docs.length (docs.map preprocess_text) u) ∧
    (TFIDFfit log stT docs).documents = (TFIDFfit log TFIDFinit docs).documents ∧
    (TFIDFfit log stT docs).vocabulary =
      stT.vocabulary ∪ (TFIDFfit log TFIDFinit docs).vocabulary := by
  have hne : docs ≠ [] := (BM25fit_snd_eq_none_iff log st docs).mp h
  rw [BM25fit_of_ne_nil log st docs hne, BM25fit_of_ne_nil log _ docs hne] at *
  refine ⟨rfl, rfl, rfl, rfl, rfl, ?_, ?_, rfl, ?_⟩
  · show vocabUpdate (docs.map preprocess_text) st.vocabulary =
      st.vocabulary ∪ vocabUpdate (docs.map preprocess_text) (BM25init st.k1 st.b).vocabulary
    exact vocabUpdate_eq_union _ _
  · exact dictGet_calcIdfScores log _ docs.length _ st.idf_scores u hu
  · show vocabUpdate (docs.map preprocess_text) stT.vocabulary =
      stT.vocabulary ∪ vocabUpdate (docs.map preprocess_text) TFIDFinit.vocabulary
    exact vocabUpdate_eq_union _ _

/-- Witness for `refit_replaces_corpus_fields`: second fit after `["a"]`. -/
theorem refit_replaces_corpus_fields_witness :
    ((BM25fit logW (BM25fit logW (BM25init 1 1) ["a"]).1 ["b"]).2 = none ∧
      "a" ∈ (BM25fit logW (BM25fit logW (BM25init 1 1) ["a"]).1 ["b"]).1.vocabulary) ∧
    (BM25fit logW (BM25fit logW (BM25init 1 1) ["a"]).1 ["b"]).1.vocabulary =
      (BM25fit logW (BM25init 1 1) ["a"]).1.vocabulary ∪
        (BM25fit logW (BM25init (BM25fit logW (BM25init 1 1) ["a"]).1.k1
          (BM25fit logW (BM25init 1 1) ["a"]).1.b) ["b"]).1.vocabulary :=
  ⟨⟨by decide, by decide⟩,
    ((refit_replaces_corpus_fields logW (BM25fit logW (BM25init 1 1) ["a"]).1 ["b"]
      TFIDFinit "a" (by decide) (by decide)).2.2.2.2.2).1⟩

/-! ### C3: BM25 parameters are never validated -/

/-- C3 counterexample: constructing BM25 with `k1 = -1` and `b = 2` does not
fail (there is no `InvalidParameterError` anywhere in the code): the invalid
parameters are stored unchanged and a subsequent `fit` succeeds. -/
theorem bm25_invalid_params_accepted_cex :
    (BM25init (-1) 2).k1 = -1 ∧ (BM25init (-1) 2).b = 2 ∧
    (BM25fit logW (BM25init (-1) 2) ["a"]).2 = none :=
  ⟨rfl, rfl, rfl⟩

/-- C3 amended: `BM25Calculator.__init__` performs no validation at all:
every pair `(k1, b)` — valid or not — is accepted and stored unchanged, and
fitting a non-empty corpus succeeds regardless of the parameter values; no
`InvalidParameterError` is raised at construction or at use. -/
theorem bm25_params_never_validated (k1 b : ℚ) (log : ℚ → ℚ)
    (docs : List String) (h : docs ≠ []) :
    (BM25init k1 b).k1 = k1 ∧ (BM25init k1 b).b = b ∧
    (BM25fit log (BM25init k1 b) docs).2 = none :=
  ⟨rfl, rfl, (BM25fit_snd_eq_none_iff log (BM25init k1 b) docs).mpr h⟩

/-- Witness for `bm25_params_never_validated` at the invalid pair `(-1, 2)`. -/
theorem bm25_params_never_validated_witness :
    (BM25init (-1) 2).k1 = -1 ∧ (BM25init (-1) 2).b = 2 ∧
    (BM25fit logW (BM25init (-1) 2) ["a"]).2 = none :=
  bm25_params_never_validated (-1) 2 logW ["a"] (by decide)

/-! ### C6: avg_doc_length after a successful fit -/

/-- C6 counterexample: the corpus `[""]` is non-empty but has no tokens; its
`fit` succeeds (rather than failing explicitly) and establishes
`avg_doc_length = 0`, so the ratio used by BM25 length normalization is a
division by zero on every subsequent scoring call. -/
theorem avg_doc_length_zero_cex :
    (BM25fit logW (BM25init (6/5) (3/4)) [""]).2 = none ∧
    (BM25fit logW (BM25init (6/5) (3/4)) [""]).1.avg_doc_length = 0 := by
  constructor
  · rfl
  · rw [BM25fit_of_ne_nil logW _ [""] (by simp)]
    norm_num [show preprocess_text "" = [] from rfl]

/-- C6 amended: after a successful `fit`, `avg_doc_length` is nonnegative and
is positive exactly when the corpus contains at least one token; a non-empty
corpus whose documents all tokenize to nothing is fitted successfully with
`avg_doc_length = 0` instead of failing. -/
theorem avg_doc_length_pos_iff_tokens (log : ℚ → ℚ) (st : BM25State)
    (docs : List String) (h : (BM25fit log st docs).2 = none) :
    0 ≤ (BM25fit log st docs).1.avg_doc_length ∧
    (0 < (BM25fit log st docs).1.avg_doc_length ↔
      0 < (docs.map (fun d => (preprocess_text d).length)).sum) := by
  have hne : docs ≠ [] := (BM25fit_snd_eq_none_iff log st docs).mp h
  rw [BM25fit_of_ne_nil log st docs hne]
  have hlen : (((docs.map preprocess_text).map List.length).length : ℚ) = (docs.length : ℚ) := by
    simp
  have hpos : (0 : ℚ) < (((docs.map preprocess_text).map List.length).length : ℚ) := by
    rw [hlen]
    exact_mod_cast List.length_pos.mpr hne
  have hsum : (docs.map (fun d => (preprocess_text d).length)).sum
      = ((docs.map preprocess_text).map List.length).sum := by
    rw [List.map_map]
    rfl
  constructor
  · exact div_nonneg (by positivity) (le_of_lt hpos)
  · rw [hsum]
    constructor
    · intro hq
      rcases div_pos_iff.mp hq with ⟨hn, _⟩ | ⟨_, hd⟩
      · exact_mod_cast hn
      · exact absurd hpos (not_lt.mpr (le_of_lt hd))
    · intro hs
      exact div_pos (by exact_mod_cast hs) hpos

/-- Witness for `avg_doc_length_pos_iff_tokens` on a corpus with tokens. -/
theorem avg_doc_length_pos_iff_tokens_witness :
    (BM25fit logW (BM25init 1 1) ["a b"]).2 = none ∧
    (0 ≤ (BM25fit logW (BM25init 1 1) ["a b"]).1.avg_doc_length ∧
      (0 < (BM25fit logW (BM25init 1 1) ["a b"]).1.avg_doc_length ↔
        0 < (["a b"].map (fun d => (preprocess_text d).length)).sum)) :=
  ⟨by decide, avg_doc_length_pos_iff_tokens logW (BM25init 1 1) ["a b"] (by decide)⟩

/-! ### C10: the IDF table covers the vocabulary after any fit sequence -/

lemma idf_covers_vocab_BM25fit (log : ℚ → ℚ) (st : BM25State) (docs : List String)
    (h : ∀ u ∈ st.vocabulary, (dictGet st.idf_scores u).isSome = true) :
    ∀ u ∈ (BM25fit log st docs).1.vocabulary,
      (dictGet (BM25fit log st docs).1.idf_scores u).isSome = true := by
  by_cases hd : docs = []
  · subst hd
    rw [BM25fit_nil]
    exact h
  · rw [BM25fit_of_ne_nil log st docs hd]
    intro u hu
    rw [dictGet_calcIdfScores log _ docs.length _ st.idf_scores u hu]
    rfl

lemma idf_covers_vocab_TFIDFfit (log : ℚ → ℚ) (st : TFIDFState) (docs : List String) :
    ∀ u ∈ (TFIDFfit log st docs).vocabulary,
      (dictGet (TFIDFfit log st docs).idf_scores u).isSome = true := by
  intro u hu
  show (dictGet (((vocabUpdate (docs.map preprocess_text) st.vocabulary).sort (· ≤ ·)).foldl
    (fun d t => dictSet d t (calculate_idf log t (docs.map preprocess_text)))
    st.idf_scores) u).isSome = true
  rw [dictGet_foldl_dictSet (fun t => calculate_idf log t (docs.map preprocess_text))]
  have : u ∈ (vocabUpdate (docs.map preprocess_text) st.vocabulary).sort (· ≤ ·) := by
    rw [Finset.mem_sort]
    exact hu
  rw [if_pos this]
  rfl

lemma idf_covers_vocab_applyFits (log : ℚ → ℚ) (st : BM25State)
    (fits : List (List String))
    (h : ∀ u ∈ st.vocabulary, (dictGet st.idf_scores u).isSome = true) :
    ∀ u ∈ (applyFits log st fits).vocabulary,
      (dictGet (applyFits log st fits).idf_scores u).isSome = true := by
  induction fits generalizing st with
  | nil => exact h
  | cons docs fits ih =>
    exact ih (BM25fit log st docs).1 (idf_covers_vocab_BM25fit log st docs h)

lemma idf_covers_vocab_applyFitsT (log : ℚ → ℚ) (st : TFIDFState)
    (fits : List (List String))
    (h : ∀ u ∈ st.vocabulary, (dictGet st.idf_scores u).isSome = true) :
    ∀ u ∈ (applyFitsT log st fits).vocabulary,
      (dictGet (applyFitsT log st fits).idf_scores u).isSome = true := by
  induction fits generalizing st with
  | nil => exact h
  | cons docs fits ih =>
    exact ih (TFIDFfit log st docs) (idf_covers_vocab_TFIDFfit log st docs)

/-- C10: after any sequence of `fit` calls on either engine (successful or
raising, with the vocabulary accumulating across them), every vocabulary term
has an entry in the IDF table, so the unguarded `self.idf_scores[term]` lookup
performed during scoring for a term already found in the vocabulary cannot
raise a `KeyError`. -/
theorem vocabulary_subset_idf_domain (log : ℚ → ℚ) (k1 b : ℚ)
    (fits : List (List String)) (t : String)
    (hB : t ∈ (applyFits log (BM25init k1 b) fits).vocabulary)
    (hT : t ∈ (applyFitsT log TFIDFinit fits).vocabulary) :
    (dictGet (applyFits log (BM25init k1 b) fits).idf_scores t).isSome = true ∧
    (dictGet (applyFitsT log TFIDFinit fits).idf_scores t).isSome = true :=
  ⟨idf_covers_vocab_applyFits log (BM25init k1 b) fits (by intro u hu; simp [BM25init] at hu)
      t hB,
    idf_covers_vocab_applyFitsT log TFIDFinit fits (by intro u hu; simp [TFIDFinit] at hu)
      t hT⟩

/-- Witness for `vocabulary_subset_idf_domain`: two fits (the second one the
raising empty fit) accumulate `"a"` and `"b"`; the term `"a"` from the first
corpus still has an IDF entry. -/
theorem vocabulary_subset_idf_domain_witness :
    ("a" ∈ (applyFits logW (BM25init 1 1) [["a b"], ["b"]]).vocabulary ∧
      "a" ∈ (applyFitsT logW TFIDFinit [["a b"], ["b"]]).vocabulary) ∧
    ((dictGet (applyFits logW (BM25init 1 1) [["a b"], ["b"]]).idf_scores "a").isSome = true ∧
      (dictGet (applyFitsT logW TFIDFinit [["a b"], ["b"]]).idf_scores "a").isSome = true) :=
  ⟨⟨by decide, by decide⟩,
    vocabulary_subset_idf_domain logW 1 1 [["a b"], ["b"]] "a" (by decide) (by decide)⟩

/-! ### C4: the BM25 document score formula -/

lemma foldl_add_filter (p : String → Prop) [DecidablePred p] (f : String → ℚ)
    (l : List String) (init : ℚ) :
    l.foldl (fun s t => if p t then s + f t else s) init =
      init + ((l.filter (fun t => decide (p t))).map f).sum := by
  induction l generalizing init with
  | nil => simp
  | cons t l ih =>
    by_cases hp : p t
    · rw [List.foldl_cons, if_pos hp, ih]
      have hfc : (t :: l).filter (fun u => decide (p u)) =
          t :: l.filter (fun u => decide (p u)) := by
        simp [List.filter_cons, hp]
      rw [hfc, List.map_cons, List.sum_cons]
      ring
    · rw [List.foldl_cons, if_neg hp, ih]
      have hfc : (t :: l).filter (fun u => decide (p u)) =
          l.filter (fun u => decide (p u)) := by
        simp [List.filter_cons, hp]
      rw [hfc]

lemma calculate_bm25_score_eq (st : BM25State) (q : String) (d : Nat) :
    calculate_bm25_score st q d =
      (preprocess_text q).foldl
        (fun score term =>
          if term ∈ st.vocabulary then
            score + bm25TermScore st ((st.doc_lengths.getD d 0 : ℚ))
              (((st.doc_term_freqs.getD d []).count term : ℚ)) term
          else score) 0 := rfl

lemma bm25TermScore_eq (st : BM25State) (dl tf : ℚ) (t : String) :
    bm25TermScore st dl tf t =
      ((dictGet st.idf_scores t).getD 0) * (tf * (st.k1 + 1)) /
        (tf + st.k1 * (1 - st.b + st.b * (dl / st.avg_doc_length))) := rfl

lemma getD_map_lt {α β : Type} (f : α → β) (l : List α) (i : Nat)
    (h : i < l.length) (a : α) (b : β) :
    (l.map f).getD i b = f (l.getD i a) := by
  rw [List.getD_eq_getElem?_getD, List.getD_eq_getElem?_getD, List.getElem?_map,
    List.getElem?_eq_getElem h]
  simp

/-- C4: for a state produced by a successful `fit` and a valid document index,
`calculate_bm25_score` equals the sum, over all query tokens present in the
vocabulary (duplicates re-summed, absent tokens skipped), of
`idf(t) * (tf * (k1+1)) / (tf + k1 * (1 - b + b * dl/avgdl))` with
`idf(t) = log((N - df(t) + 0.5) / (df(t) + 0.5))` and `df(t)` the number of
corpus documents containing `t`. -/
theorem bm25_score_formula (log : ℚ → ℚ) (st0 : BM25State) (docs : List String)
    (q : String) (d : Nat) (h : (BM25fit log st0 docs).2 = none)
    (hd : d < docs.length) :
    calculate_bm25_score (BM25fit log st0 docs).1 q d =
      (((preprocess_text q).filter
          (fun t => decide (t ∈ (BM25fit log st0 docs).1.vocabulary))).map
        (fun t =>
          log (((docs.length : ℚ) -
              (docs.countP (fun doc => decide (t ∈ preprocess_text doc)) : ℚ) + 1/2) /
            ((docs.countP (fun doc => decide (t ∈ preprocess_text doc)) : ℚ) + 1/2)) *
            (((preprocess_text (docs.getD d "")).count t : ℚ) * (st0.k1 + 1)) /
            (((preprocess_text (docs.getD d "")).count t : ℚ) +
              st0.k1 * (1 - st0.b + st0.b *
                (((preprocess_text (docs.getD d "")).length : ℚ) /
                  (BM25fit log st0 docs).1.avg_doc_length))))).sum := by
  have hne : docs ≠ [] := (BM25fit_snd_eq_none_iff log st0 docs).mp h
  rw [BM25fit_of_ne_nil log st0 docs hne]
  rw [calculate_bm25_score_eq]
  simp only []
  rw [foldl_add_filter
    (fun t => t ∈ vocabUpdate (docs.map preprocess_text) st0.vocabulary), zero_add]
  congr 1
  apply List.map_congr_left
  intro t htmem
  have htv : t ∈ vocabUpdate (docs.map preprocess_text) st0.vocabulary := by
    have := List.mem_filter.mp htmem
    simpa using this.2
  have hdtf : ((docs.map preprocess_text).getD d []) = preprocess_text (docs.getD d "") :=
    getD_map_lt preprocess_text docs d hd "" []
  have hdl : (((docs.map preprocess_text).map List.length).getD d 0)
      = (preprocess_text (docs.getD d "")).length := by
    rw [getD_map_lt List.length (docs.map preprocess_text) d (by simpa using hd) [] 0, hdtf]
  rw [bm25TermScore_eq]
  simp only []
  rw [dictGet_calcIdfScores log _ docs.length _ st0.idf_scores t htv]
  rw [bm25IdfValue]
  simp only [Option.getD_some, hdtf, hdl]
  have hdf : (docs.map preprocess_text).countP (fun dd => decide (t ∈ dd))
      = docs.countP (fun doc => decide (t ∈ preprocess_text doc)) := by
    rw [List.countP_map]
    rfl
  rw [hdf]

/-- Witness for `bm25_score_formula` at a concrete fitted corpus. -/
theorem bm25_score_formula_witness :
    ((BM25fit logW (BM25init 1 1) ["a b", "b"]).2 = none ∧ 0 < 2) ∧
    calculate_bm25_score (BM25fit logW (BM25init 1 1) ["a b", "b"]).1 "b a c" 0 =
      (((preprocess_text "b a c").filter
          (fun t => decide (t ∈ (BM25fit logW (BM25init 1 1) ["a b", "b"]).1.vocabulary))).map
        (fun t =>
          logW (((["a b", "b"].length : ℚ) -
              (["a b", "b"].countP (fun doc => decide (t ∈ preprocess_text doc)) : ℚ) + 1/2) /
            ((["a b", "b"].countP (fun doc => decide (t ∈ preprocess_text doc)) : ℚ) + 1/2)) *
            (((preprocess_text (["a b", "b"].getD 0 "")).count t : ℚ) * ((BM25init 1 1).k1 + 1)) /
            (((preprocess_text (["a b", "b"].getD 0 "")).count t : ℚ) +
              (BM25init 1 1).k1 * (1 - (BM25init 1 1).b + (BM25init 1 1).b *
                (((preprocess_text (["a b", "b"].getD 0 "")).length : ℚ) /
                  (BM25fit logW (BM25init 1 1) ["a b", "b"]).1.avg_doc_length))))).sum :=
  ⟨⟨rfl, by decide⟩,
    bm25_score_formula logW (BM25init 1 1) ["a b", "b"] "b a c" 0 rfl (by decide)⟩

/-! ### C8: operations invoked before fit -/

lemma rankerFit_eq (log : ℚ → ℚ) (r : RankerState) (docs : List String) :
    rankerFit log r docs =
      match (BM25fit log r.bm25_calc docs).2 with
      | some e =>
        ({ r with documents := docs, bm25_calc := (BM25fit log r.bm25_calc docs).1 }, some e)
      | none =>
        ({ bm25_calc := (BM25fit log r.bm25_calc docs).1, documents := docs,
            fitted := true }, none) := rfl

lemma calculate_tfidf_vector_eq (st : TFIDFState) (text : String) :
    calculate_tfidf_vector st text =
      if st.documents.length = 0 then Except.error PyErr.valueError
      else Except.ok ((preprocess_text text).foldl
        (fun vec term =>
          if term ∈ st.vocabulary then
            dictSet vec term
              (calculate_tf term (preprocess_text text) * (dictGet st.idf_scores term).getD 0)
          else vec) []) := rfl

/-- C8 counterexample: `BM25Calculator.rank_documents` invoked on a freshly
constructed (never fitted) instance does not fail: it returns the empty result
list. -/
theorem rank_before_fit_returns_cex :
    rank_documents (BM25init (6/5) (3/4)) "x" (some 10) = [] := by
  simp [rank_documents, BM25init]

/-- C8 amended: before any fit, `BM25DocumentRanker.search` and
`TFIDFCalculator.calculate_tfidf_vector` fail with `ValueError` (the code has
no `NotFittedError` class), while `BM25Calculator.rank_documents` silently
returns the empty list instead of failing; after a later successful fit of a
non-empty corpus, the same ranker and TF-IDF instances return results. -/
theorem scoring_before_fit (log : ℚ → ℚ) (k1 b : ℚ) (q text : String) (k : Nat)
    (r : RankerState) (docs : List String) (stT : TFIDFState)
    (hr : r.fitted = false) (hdocs : docs ≠ []) :
    rankerSearch r q k = Except.error PyErr.valueError ∧
    calculate_tfidf_vector TFIDFinit text = Except.error PyErr.valueError ∧
    rank_documents (BM25init k1 b) q (some k) = [] ∧
    (∃ res, rankerSearch (rankerFit log r docs).1 q k = Except.ok res) ∧
    (∃ v, calculate_tfidf_vector (TFIDFfit log stT docs) text = Except.ok v) := by
  refine ⟨?_, rfl, ?_, ?_, ?_⟩
  · rw [rankerSearch, if_pos hr]
  · simp [rank_documents, BM25init]
  · have hfit : (BM25fit log r.bm25_calc docs).2 = none :=
      (BM25fit_snd_eq_none_iff log r.bm25_calc docs).mpr hdocs
    rw [rankerFit_eq, hfit]
    exact ⟨_, rfl⟩
  · have hlen : (TFIDFfit log stT docs).documents.length ≠ 0 := by
      show (docs.map preprocess_text).length ≠ 0
      have hd0 : docs.length ≠ 0 := fun hh => hdocs (List.length_eq_zero.mp hh)
      simpa using hd0
    rw [calculate_tfidf_vector_eq, if_neg hlen]
    exact ⟨_, rfl⟩

/-- Witness for `scoring_before_fit` on a fresh ranker later fitted on a
one-document corpus. -/
theorem scoring_before_fit_witness :
    ((rankerInit 1 1).fitted = false ∧ (["a"] : List String) ≠ []) ∧
    (rankerSearch (rankerInit 1 1) "x" 3 = Except.error PyErr.valueError ∧
      calculate_tfidf_vector TFIDFinit "x" = Except.error PyErr.valueError ∧
      rank_documents (BM25init 1 1) "x" (some 3) = [] ∧
      (∃ res, rankerSearch (rankerFit logW (rankerInit 1 1) ["a"]).1 "x" 3 = Except.ok res) ∧
      (∃ v, calculate_tfidf_vector (TFIDFfit logW TFIDFinit ["a"]) "x" = Except.ok v)) :=
  ⟨⟨rfl, by decide⟩,
    scoring_before_fit logW 1 1 "x" "x" 3 (rankerInit 1 1) ["a"] TFIDFinit rfl (by decide)⟩

/-! ### C7: document-index validation in get_term_analysis -/

lemma pyIndex_isSome_iff {α : Type} (l : List α) (i : Int) :
    (pyIndex l i).isSome = true ↔ (-(l.length : Int) ≤ i ∧ i < (l.length : Int)) := by
  unfold pyIndex
  split
  · rename_i h0
    rw [Option.isSome_iff_ne_none, ne_eq, List.get?_eq_none]
    omega
  · rename_i h0
    split
    · rename_i hge
      rw [Option.isSome_iff_ne_none, ne_eq, List.get?_eq_none]
      omega
    · rename_i hge
      simp only [Option.isSome_none, Bool.false_eq_true, false_iff]
      omega

lemma pyIndex_eq_none_of_out {α : Type} (l : List α) (i : Int)
    (h : ¬(-(l.length : Int) ≤ i ∧ i < (l.length : Int))) : pyIndex l i = none := by
  have := pyIndex_isSome_iff l i
  cases hv : pyIndex l i with
  | none => rfl
  | some a => exact absurd (this.mp (by rw [hv]; rfl)) h

lemma analysisTerms_ok (st : BM25State) (dtf : List String) (dl : ℚ)
    (qts : List String) (L : List String)
    (hk1 : 0 < st.k1) (hb0 : 0 ≤ st.b) (hb1 : st.b < 1)
    (havg : 0 < st.avg_doc_length) (hdl : 0 ≤ dl) :
    ∃ r, analysisTerms st dtf dl qts L = Except.ok r := by
  induction L with
  | nil => exact ⟨_, rfl⟩
  | cons t ts ih =>
    rw [analysisTerms]
    by_cases hv : t ∈ st.vocabulary
    · rw [if_pos hv]
      have hnorm : 0 < 1 - st.b + st.b * (dl / st.avg_doc_length) := by
        have h1 : 0 ≤ st.b * (dl / st.avg_doc_length) :=
          mul_nonneg hb0 (div_nonneg hdl (le_of_lt havg))
        nlinarith
      have hden : ((dtf.count t : ℚ)) +
          st.k1 * (1 - st.b + st.b * (dl / st.avg_doc_length)) ≠ 0 := by
        have h1 : (0 : ℚ) ≤ (dtf.count t : ℚ) := by positivity
        nlinarith [mul_pos hk1 hnorm]
      rw [if_neg hden]
      obtain ⟨r, hr⟩ := ih
      rw [hr]
      exact ⟨_, rfl⟩
    · rw [if_neg hv]
      exact ih

lemma get_term_analysis_ok_iff (log : ℚ → ℚ) (st0 : BM25State) (docs : List String)
    (q : String) (i : Int)
    (h : (BM25fit log st0 docs).2 = none)
    (havg : (BM25fit log st0 docs).1.avg_doc_length ≠ 0)
    (hk1 : 0 < st0.k1) (hb0 : 0 ≤ st0.b) (hb1 : st0.b < 1) :
    ((∃ a, get_term_analysis (BM25fit log st0 docs).1 q i = Except.ok a) ↔
      (-(docs.length : Int) ≤ i ∧ i < (docs.length : Int))) ∧
    (get_term_analysis (BM25fit log st0 docs).1 q i = Except.error PyErr.indexError ↔
      ¬(-(docs.length : Int) ≤ i ∧ i < (docs.length : Int))) := by
  have hne : docs ≠ [] := (BM25fit_snd_eq_none_iff log st0 docs).mp h
  have havgpos : 0 < (BM25fit log st0 docs).1.avg_doc_length := by
    have hnn : 0 ≤ (BM25fit log st0 docs).1.avg_doc_length := by
      rw [BM25fit_of_ne_nil log st0 docs hne]
      exact div_nonneg (by positivity) (by positivity)
    exact lt_of_le_of_ne hnn (Ne.symm havg)
  rw [BM25fit_of_ne_nil log st0 docs hne] at *
  have hlen1 : ((docs.map preprocess_text).length : Int) = (docs.length : Int) := by simp
  have hlen2 : (((docs.map preprocess_text).map List.length).length : Int) =
      (docs.length : Int) := by simp
  by_cases hin : (-(docs.length : Int) ≤ i ∧ i < (docs.length : Int))
  · have hs1 : (pyIndex (docs.map preprocess_text) i).isSome = true := by
      rw [pyIndex_isSome_iff, hlen1]
      exact hin
    have hs2 : (pyIndex ((docs.map preprocess_text).map List.length) i).isSome = true := by
      rw [pyIndex_isSome_iff, hlen2]
      exact hin
    obtain ⟨dtf, hdtf⟩ := Option.isSome_iff_exists.mp hs1
    obtain ⟨dl, hdl⟩ := Option.isSome_iff_exists.mp hs2
    obtain ⟨r, hr⟩ := analysisTerms_ok
      { k1 := st0.k1, b := st0.b, documents := docs,
        doc_lengths := (docs.map preprocess_text).map List.length,
        avg_doc_length := (((docs.map preprocess_text).map List.length).sum : ℚ) /
          ((((docs.map preprocess_text).map List.length).length : ℚ)),
        vocabulary := vocabUpdate (docs.map preprocess_text) st0.vocabulary,
        doc_term_freqs := docs.map preprocess_text,
        idf_scores := calcIdfScores log (vocabUpdate (docs.map preprocess_text) st0.vocabulary)
          docs.length (docs.map preprocess_text) st0.idf_scores,
        N := docs.length }
      dtf ((dl : ℚ)) (preprocess_text q) (preprocess_text q).dedup
      hk1 hb0 hb1 havgpos (by positivity)
    rw [get_term_analysis]
    rw [hdtf, hdl]
    simp only [hr]
    have havg0 : ¬((((docs.map preprocess_text).map List.length).sum : ℚ) /
        ((((docs.map preprocess_text).map List.length).length : ℚ)) = 0) := havg
    rw [if_neg havg0]
    obtain ⟨es, tot⟩ := r
    constructor
    · exact iff_of_true ⟨_, rfl⟩ hin
    · exact iff_of_false (fun hcon => Except.noConfusion hcon) (not_not_intro hin)
  · have h1 : pyIndex (docs.map preprocess_text) i = none := by
      apply pyIndex_eq_none_of_out
      rw [hlen1]
      exact hin
    rw [get_term_analysis, h1]
    constructor
    · exact iff_of_false (fun hcon => Except.noConfusion hcon.choose_spec) hin
    · exact iff_of_true rfl hin

/-- C7 counterexample: on a two-document fitted corpus, the explanation
operation at the negative index `-1` (outside `[0, doc_count)`) does not fail:
Python list indexing wraps negative indices, so it returns the analysis of the
last document. -/
theorem analysis_negative_index_cex :
    ∃ a, get_term_analysis (BM25fit logW (BM25init (6/5) (3/4)) ["a b", "c"]).1 "a" (-1) =
      Except.ok a := by
  have havg : (BM25fit logW (BM25init (6/5) (3/4)) ["a b", "c"]).1.avg_doc_length ≠ 0 := by
    rw [BM25fit_of_ne_nil logW _ _ (by simp)]
    norm_num [show preprocess_text "a b" = ["a", "b"] from rfl,
      show preprocess_text "c" = ["c"] from rfl]
  exact (get_term_analysis_ok_iff logW (BM25init (6/5) (3/4)) ["a b", "c"] "a" (-1) rfl havg
    (by norm_num [BM25init]) (by norm_num [BM25init]) (by norm_num [BM25init])).1.mpr
    (by norm_num)

/-- C7 amended: on a fitted corpus (positive average length, `k1 > 0`,
`0 ≤ b < 1`), `get_term_analysis` fails with `IndexError` (the code has no
`IndexOutOfRangeError`) exactly when `doc_idx` is outside `[-doc_count,
doc_count)`, and returns an explanation exactly when `doc_idx` lies inside
that interval: negative indices down to `-doc_count` succeed, addressing
documents from the end, instead of failing. -/
theorem analysis_index_check (log : ℚ → ℚ) (st0 : BM25State) (docs : List String)
    (q : String) (i : Int)
    (h : (BM25fit log st0 docs).2 = none)
    (havg : (BM25fit log st0 docs).1.avg_doc_length ≠ 0)
    (hk1 : 0 < st0.k1) (hb0 : 0 ≤ st0.b) (hb1 : st0.b < 1) :
    (get_term_analysis (BM25fit log st0 docs).1 q i = Except.error PyErr.indexError ↔
      (i < -(docs.length : Int) ∨ (docs.length : Int) ≤ i)) ∧
    ((∃ a, get_term_analysis (BM25fit log st0 docs).1 q i = Except.ok a) ↔
      (-(docs.length : Int) ≤ i ∧ i < (docs.length : Int))) := by
  obtain ⟨hok, herr⟩ := get_term_analysis_ok_iff log st0 docs q i h havg hk1 hb0 hb1
  refine ⟨?_, hok⟩
  rw [herr]
  constructor
  · intro hcon
    omega
  · intro hcon
    omega

/-- Witness for `analysis_index_check` at the out-of-range index 5. -/
theorem analysis_index_check_witness :
    ((BM25fit logW (BM25init (6/5) (3/4)) ["a b", "c"]).2 = none ∧
      (BM25fit logW (BM25init (6/5) (3/4)) ["a b", "c"]).1.avg_doc_length ≠ 0 ∧
      (0 : ℚ) < (BM25init (6/5) (3/4)).k1) ∧
    ((get_term_analysis (BM25fit logW (BM25init (6/5) (3/4)) ["a b", "c"]).1 "a" 5 =
        Except.error PyErr.indexError ↔
      ((5 : Int) < -((["a b", "c"] : List String).length : Int) ∨
        (((["a b", "c"] : List String).length : Int) ≤ 5)) ) ∧
    ((∃ a, get_term_analysis (BM25fit logW (BM25init (6/5) (3/4)) ["a b", "c"]).1 "a" 5 =
        Except.ok a) ↔
      (-(((["a b", "c"] : List String).length : Int)) ≤ 5 ∧
        (5 : Int) < ((["a b", "c"] : List String).length : Int)))) := by
  have havg : (BM25fit logW (BM25init (6/5) (3/4)) ["a b", "c"]).1.avg_doc_length ≠ 0 := by
    rw [BM25fit_of_ne_nil logW _ _ (by simp)]
    norm_num [show preprocess_text "a b" = ["a", "b"] from rfl,
      show preprocess_text "c" = ["c"] from rfl]
  exact ⟨⟨rfl, havg, by norm_num [BM25init]⟩,
    analysis_index_check logW (BM25init (6/5) (3/4)) ["a b", "c"] "a" 5 rfl havg
      (by norm_num [BM25init]) (by norm_num [BM25init]) (by norm_num [BM25init])⟩

/-! ### C5: rank_documents ordering, permutation and truncation -/

open List in
lemma pairwise_sublist_pair {α : Type} {R : α → α → Prop}
    (hasym : ∀ x y, R x y → ¬R y x) :
    ∀ (l : List α), l.Pairwise R → ∀ a b, a ∈ l → b ∈ l → R b a → [b, a] <+ l := by
  intro l
  induction l with
  | nil =>
    intro _ a b ha
    exact absurd ha (List.not_mem_nil a)
  | cons c t ih =>
    intro hp a b ha hb hba
    rw [List.pairwise_cons] at hp
    obtain ⟨hc, ht⟩ := hp
    rcases List.mem_cons.mp hb with hbc | hbt
    · subst hbc
      rcases List.mem_cons.mp ha with hac | hat
      · exact absurd hba (by rw [hac]; exact fun hh => hasym _ _ hh hh)
      · exact List.Sublist.cons₂ _ ((List.singleton_sublist).mpr hat)
    · rcases List.mem_cons.mp ha with hac | hat
      · subst hac
        exact absurd (hc b hbt) (hasym b a hba)
      · exact List.Sublist.cons _ (ih ht a b hat hbt hba)

open List in
lemma sublist_pair_antisymm {α : Type} :
    ∀ (l : List α), l.Nodup → ∀ a b, [a, b] <+ l → [b, a] <+ l → a = b := by
  intro l
  induction l with
  | nil =>
    intro _ a b h1 _
    exact absurd h1 (by simp)
  | cons c t ih =>
    intro hnd a b h1 h2
    have hndt : t.Nodup := (List.nodup_cons.mp hnd).2
    have hcnott : c ∉ t := (List.nodup_cons.mp hnd).1
    cases h1 with
    | cons _ h1' =>
      cases h2 with
      | cons _ h2' => exact ih hndt a b h1' h2'
      | cons₂ _ h2' =>
        have : c ∈ t := (List.Sublist.subset h1') (by simp)
        exact absurd this hcnott
    | cons₂ _ h1' =>
      cases h2 with
      | cons _ h2' =>
        have : c ∈ t := (List.Sublist.subset h2') (by simp)
        exact absurd this hcnott
      | cons₂ _ h2' => rfl

lemma rank_le_trans :
    ∀ (a b c : Nat × String × ℚ), (fun a b => decide (b.2.2 ≤ a.2.2)) a b →
      (fun a b => decide (b.2.2 ≤ a.2.2)) b c → (fun a b => decide (b.2.2 ≤ a.2.2)) a c := by
  intro a b c h1 h2
  simp only [decide_eq_true_eq] at *
  exact le_trans h2 h1

lemma rank_le_total :
    ∀ (a b : Nat × String × ℚ),
      ((fun a b => decide (b.2.2 ≤ a.2.2)) a b || (fun a b => decide (b.2.2 ≤ a.2.2)) b a) = true := by
  intro a b
  simpa [Bool.or_eq_true, decide_eq_true_eq] using le_total b.2.2 a.2.2

open List in
/-- C5: `rank_documents(query, None)` returns exactly `doc_count` results
whose indices are a permutation of all document indices, sorted non-increasing
by score with equal-scoring documents in ascending original index order
(Python's stable sort), and `rank_documents(query, k)` is the `k`-entry
truncation of that sequence. -/
theorem rank_documents_ordering (st : BM25State) (q : String) (k : Nat) :
    (rank_documents st q none).length = st.documents.length ∧
    ((rank_documents st q none).map Prod.fst).Perm (List.range st.documents.length) ∧
    (rank_documents st q none).Pairwise (fun a b => b.2.2 ≤ a.2.2) ∧
    (rank_documents st q none).Pairwise (fun a b => a.2.2 = b.2.2 → a.1 < b.1) ∧
    rank_documents st q (some k) = (rank_documents st q none).take k := by
  have hmain : rank_documents st q none =
      ((List.range st.documents.length).map
        (fun i => (i, st.documents.getD i "", calculate_bm25_score st q i))).mergeSort
        (fun a b => decide (b.2.2 ≤ a.2.2)) := rfl
  have hperm := List.mergeSort_perm
    ((List.range st.documents.length).map
      (fun i => (i, st.documents.getD i "", calculate_bm25_score st q i)))
    (fun a b => decide (b.2.2 ≤ a.2.2))
  have hlfst : ((List.range st.documents.length).map
      (fun i => (i, st.documents.getD i "", calculate_bm25_score st q i))).map Prod.fst =
      List.range st.documents.length := by
    rw [List.map_map]
    have hcomp : (Prod.fst ∘ fun i : Nat =>
        (i, st.documents.getD i "", calculate_bm25_score st q i)) = id := rfl
    rw [hcomp, List.map_id]
  have hlpw : ((List.range st.documents.length).map
      (fun i => (i, st.documents.getD i "", calculate_bm25_score st q i))).Pairwise
      (fun a b => a.1 < b.1) := by
    rw [List.pairwise_map]
    exact List.pairwise_lt_range st.documents.length
  have hlnodup : ((List.range st.documents.length).map
      (fun i => (i, st.documents.getD i "", calculate_bm25_score st q i))).Nodup :=
    hlpw.imp (fun {a b} h heq => absurd (heq ▸ h) (lt_irrefl _))
  have houtnodup : (rank_documents st q none).Nodup := by
    rw [hmain]
    exact (List.Perm.nodup_iff hperm).mpr hlnodup
  refine ⟨?_, ?_, ?_, ?_, rfl⟩
  · rw [hmain, List.length_mergeSort, List.length_map, List.length_range]
  · have h2 := hperm.map Prod.fst
    rw [hlfst] at h2
    rw [hmain]
    exact h2
  · rw [hmain]
    exact (List.sorted_mergeSort rank_le_trans rank_le_total _).imp
      (fun h => of_decide_eq_true h)
  · rw [List.pairwise_iff_forall_sublist]
    intro a b hsub heq
    by_contra hnot
    have hne : a ≠ b := List.pairwise_iff_forall_sublist.mp houtnodup hsub
    have hamem : a ∈ ((List.range st.documents.length).map
        (fun i => (i, st.documents.getD i "", calculate_bm25_score st q i))) := by
      have hmem : a ∈ rank_documents st q none := hsub.subset (by simp)
      rw [hmain] at hmem
      exact List.mem_mergeSort.mp hmem
    have hbmem : b ∈ ((List.range st.documents.length).map
        (fun i => (i, st.documents.getD i "", calculate_bm25_score st q i))) := by
      have hmem : b ∈ rank_documents st q none := hsub.subset (by simp)
      rw [hmain] at hmem
      exact List.mem_mergeSort.mp hmem
    have haeq : a = (a.1, st.documents.getD a.1 "", calculate_bm25_score st q a.1) := by
      obtain ⟨i, _, hfi⟩ := List.mem_map.mp hamem
      have : i = a.1 := congrArg Prod.fst hfi
      rw [← hfi, this]
    have hbeq : b = (b.1, st.documents.getD b.1 "", calculate_bm25_score st q b.1) := by
      obtain ⟨i, _, hfi⟩ := List.mem_map.mp hbmem
      have : i = b.1 := congrArg Prod.fst hfi
      rw [← hfi, this]
    have hab1 : a.1 ≠ b.1 := by
      intro hcon
      exact hne (by rw [haeq, hbeq, hcon])
    have hblt : b.1 < a.1 :=
      lt_of_le_of_ne (Nat.not_lt.mp hnot) (fun hh => hab1 hh.symm)
    have hsubl : [b, a] <+ ((List.range st.documents.length).map
        (fun i => (i, st.documents.getD i "", calculate_bm25_score st q i))) :=
      pairwise_sublist_pair (fun x y hxy hyx => absurd (lt_trans hxy hyx) (lt_irrefl _))
        _ hlpw a b hamem hbmem hblt
    have hsubout : [b, a] <+ rank_documents st q none := by
      rw [hmain]
      exact List.pair_sublist_mergeSort rank_le_trans rank_le_total
        (decide_eq_true (le_of_eq heq)) hsubl
    exact hne (sublist_pair_antisymm _ houtnodup a b hsub hsubout)

/-! ### C9: top_keywords averages over nonzero-tf documents only -/

lemma foldl_pair_filter {α : Type} (c : α → Prop) [DecidablePred c] (f : α → ℚ)
    (l : List α) (q0 : ℚ) (n0 : Nat) :
    l.foldl (fun p i => if c i then (p.1 + f i, p.2 + 1) else p) (q0, n0) =
      (q0 + ((l.filter (fun i => decide (c i))).map f).sum,
        n0 + (l.filter (fun i => decide (c i))).length) := by
  induction l generalizing q0 n0 with
  | nil => simp
  | cons t l ih =>
    by_cases hp : c t
    · rw [List.foldl_cons, if_pos hp, ih]
      have hfc : (t :: l).filter (fun u => decide (c u)) =
          t :: l.filter (fun u => decide (c u)) := by
        simp [List.filter_cons, hp]
      rw [hfc, List.map_cons, List.sum_cons, List.length_cons, Prod.mk.injEq]
      constructor
      · ring
      · omega
    · rw [List.foldl_cons, if_neg hp, ih]
      have hfc : (t :: l).filter (fun u => decide (c u)) =
          l.filter (fun u => decide (c u)) := by
        simp [List.filter_cons, hp]
      rw [hfc]

lemma keywordDocContrib_eq (st : BM25State) (term : String) :
    keywordDocContrib st term =
      (((keywordEligibleDocs st term).map
        (fun i => bm25TermScore st ((st.doc_lengths.getD i 0 : ℚ))
          (((st.doc_term_freqs.getD i []).count term : ℚ)) term)).sum,
        (keywordEligibleDocs st term).length) := by
  unfold keywordDocContrib keywordEligibleDocs
  rw [foldl_pair_filter (fun i => 0 < (st.doc_term_freqs.getD i []).count term)
    (fun i => bm25TermScore st ((st.doc_lengths.getD i 0 : ℚ))
      (((st.doc_term_freqs.getD i []).count term : ℚ)) term)]
  rw [zero_add, Nat.zero_add]

lemma keywords_foldl_eq (st : BM25State) (L : List String) (acc : List (String × ℚ)) :
    L.foldl (fun acc term =>
      if term ∈ st.vocabulary then
        if 0 < (keywordDocContrib st term).2 then
          acc ++ [(term, (keywordDocContrib st term).1 / ((keywordDocContrib st term).2 : ℚ))]
        else acc
      else acc) acc =
      acc ++ (L.filter (fun t => decide (t ∈ st.vocabulary) &&
          decide (0 < (keywordDocContrib st t).2))).map
        (fun t => (t, (keywordDocContrib st t).1 / ((keywordDocContrib st t).2 : ℚ))) := by
  induction L generalizing acc with
  | nil => simp
  | cons t L ih =>
    rw [List.foldl_cons]
    by_cases h1 : t ∈ st.vocabulary
    · by_cases h2 : 0 < (keywordDocContrib st t).2
      · rw [if_pos h1, if_pos h2, ih]
        have hfc : (t :: L).filter (fun u => decide (u ∈ st.vocabulary) &&
            decide (0 < (keywordDocContrib st u).2)) =
            t :: L.filter (fun u => decide (u ∈ st.vocabulary) &&
              decide (0 < (keywordDocContrib st u).2)) := by
          simp [List.filter_cons, h1, h2]
        rw [hfc, List.map_cons, List.append_assoc, List.singleton_append]
      · rw [if_pos h1, if_neg h2, ih]
        have hfc : (t :: L).filter (fun u => decide (u ∈ st.vocabulary) &&
            decide (0 < (keywordDocContrib st u).2)) =
            L.filter (fun u => decide (u ∈ st.vocabulary) &&
              decide (0 < (keywordDocContrib st u).2)) := by
          simp [List.filter_cons, h1, h2]
        rw [hfc]
    · rw [if_neg h1, ih]
      have hfc : (t :: L).filter (fun u => decide (u ∈ st.vocabulary) &&
          decide (0 < (keywordDocContrib st u).2)) =
          L.filter (fun u => decide (u ∈ st.vocabulary) &&
            decide (0 < (keywordDocContrib st u).2)) := by
        simp [List.filter_cons, h1]
      rw [hfc]

lemma kw_le_trans :
    ∀ (a b c : String × ℚ), (fun a b => decide (b.2 ≤ a.2)) a b →
      (fun a b => decide (b.2 ≤ a.2)) b c → (fun a b => decide (b.2 ≤ a.2)) a c := by
  intro a b c h1 h2
  simp only [decide_eq_true_eq] at *
  exact le_trans h2 h1

lemma kw_le_total :
    ∀ (a b : String × ℚ),
      ((fun a b => decide (b.2 ≤ a.2)) a b || (fun a b => decide (b.2 ≤ a.2)) b a) = true := by
  intro a b
  simpa [Bool.or_eq_true, decide_eq_true_eq] using le_total b.2 a.2

/-- C9: `get_top_keywords` assigns to each distinct in-vocabulary query term
with at least one matching document the arithmetic mean of its per-term BM25
score over only the documents where its term frequency is nonzero (zero-tf
documents excluded from both numerator and denominator; terms matching no
document omitted), and returns the first `top_k` of those terms stable-sorted
by that mean, descending. -/
theorem top_keywords_mean_spec (st : BM25State) (q : String) (k : Nat) :
    get_top_keywords st q k =
      ((((preprocess_text q).dedup.filter (fun t => decide (t ∈ st.vocabulary) &&
          decide (keywordEligibleDocs st t ≠ []))).map
        (fun t => (t, keywordMeanScore st t))).mergeSort
        (fun a b => decide (b.2 ≤ a.2))).take k ∧
    (get_top_keywords st q k).Pairwise (fun a b => b.2 ≤ a.2) := by
  have hfilter : ∀ t, (decide (t ∈ st.vocabulary) && decide (0 < (keywordDocContrib st t).2))
      = (decide (t ∈ st.vocabulary) && decide (keywordEligibleDocs st t ≠ [])) := by
    intro t
    rw [keywordDocContrib_eq]
    simp [List.length_pos]
  have hmean : ∀ t, (keywordDocContrib st t).1 / ((keywordDocContrib st t).2 : ℚ) =
      keywordMeanScore st t := by
    intro t
    rw [keywordDocContrib_eq, keywordMeanScore]
  constructor
  · rw [get_top_keywords, keywords_foldl_eq, List.nil_append]
    have hlist : ((preprocess_text q).dedup.filter
          (fun t => decide (t ∈ st.vocabulary) && decide (0 < (keywordDocContrib st t).2))).map
        (fun t => (t, (keywordDocContrib st t).1 / ((keywordDocContrib st t).2 : ℚ))) =
        ((preprocess_text q).dedup.filter (fun t => decide (t ∈ st.vocabulary) &&
          decide (keywordEligibleDocs st t ≠ []))).map
        (fun t => (t, keywordMeanScore st t)) := by
      rw [List.filter_congr (fun t _ => hfilter t)]
      exact List.map_congr_left (fun t _ => by rw [hmean t])
    rw [hlist]
  · rw [get_top_keywords]
    exact ((List.sorted_mergeSort kw_le_trans kw_le_total _).imp
      (fun h => of_decide_eq_true h)).sublist (List.take_sublist _ _)
